import Mathlib

/-!
Shallow embedding of the DS2490 1-Wire USB bus-master driver (ds2490.c /
ds2490.h): command-word encoders for the Communication command class, the
interrupt-report result decoder, the ROM-search step and its discrepancy
bitmap update, and the bulk block-I/O transaction.  Bytes are `Nat`s,
buffers are `List Nat`, transport outcomes (libusb return codes) are
explicit `Int` inputs, and each C function that mixes state with I/O is
modelled as a pure function from its handle state and the transport's
responses to its result and successor state.
-/

namespace OW

/-! ### Constants from ds2490.c / ds2490.h -/

def CONTROL_CMD : Nat := 0x00
def COMM_CMD : Nat := 0x01
def MODE_CMD : Nat := 0x02

def COM_SET_DURATION : Nat := 0x12
def COM_BIT_IO : Nat := 0x20
def COM_PULSE : Nat := 0x30
def COM_RESET : Nat := 0x42
def COM_BYTE_IO : Nat := 0x52
def COM_MATCH_ACCESS : Nat := 0x64
def COM_BLOCK_IO : Nat := 0x74
def COM_READ_STRAIGHT : Nat := 0x80
def COM_DO_AND_RELEASE : Nat := 0x92
def COM_SET_PATH : Nat := 0xA2
def COM_WRITE_SRAM_PAGE : Nat := 0xB2
def COM_WRITE_EPROM : Nat := 0xC4
def COM_READ_CRC_PROT_PAGE : Nat := 0xD4
def COM_READ_REDIRECT_PAGE : Nat := 0xE4
def COM_SEARCH_ACCESS : Nat := 0xF4

def PARAM_PST : Nat := 0x4000
def PARAM_RTS : Nat := 0x4000
def PARAM_SM : Nat := 0x0008
def PARAM_CIB : Nat := 0x4000
def PARAM_D : Nat := 0x0008
def PARAM_TYPE : Nat := 0x0008
def PARAM_SE : Nat := 0x0008
def PARAM_CH : Nat := 0x0008
def PARAM_DT : Nat := 0x2000
def PARAM_PS : Nat := 0x4000
def PARAM_Z : Nat := 0x0008
def PARAM_R : Nat := 0x0008
def PARAM_SPU : Nat := 0x1000
def PARAM_F : Nat := 0x0800
def PARAM_NTF : Nat := 0x0400
def PARAM_ICP : Nat := 0x0200
def PARAM_RST : Nat := 0x0100
def PARAM_IM : Nat := 0x0001

def RESULT_DETECT : Nat := 0xA5
def RESULT_XDETECT : Nat := 0x0100

def STATE_COMBYTE2 : Nat := 0x0A

def FLEXIBLE_SLOT_US : Nat := 70

/-! ### Command Encoder: a control transfer's (bRequest, wValue, wIndex) -/

/-- The wire fields of one vendor control transfer (bRequestType 0x40):
request is the command class, value and index the C ints handed to
`usb_control_msg` (libusb truncates them to the 16-bit wValue/wIndex). -/
structure ControlMsg where
  request : Nat
  value : Nat
  index : Nat
  deriving Repr, DecidableEq

/-- `owusb_com_set_duration` from ds2490.c. -/
def owusb_com_set_duration (params : Nat) (type : Bool) (duration : Nat) : ControlMsg :=
  let params := if type then params ||| PARAM_TYPE else params
  let params := params ||| COM_SET_DURATION
  ⟨COMM_CMD, params, duration &&& 0xff⟩

/-- `owusb_com_pulse` from ds2490.c. -/
def owusb_com_pulse (params : Nat) (type : Bool) : ControlMsg :=
  let params := if type then params ||| PARAM_TYPE else params
  let params := params ||| COM_PULSE
  ⟨COMM_CMD, params, 0⟩

/-- `owusb_com_reset` from ds2490.c. -/
def owusb_com_reset (params : Nat) (present : Bool) (speed : Nat) : ControlMsg :=
  let params := if present then params ||| PARAM_PST else params
  let params := params ||| COM_RESET
  ⟨COMM_CMD, params, speed &&& 0x3⟩

/-- `owusb_com_bit_io` from ds2490.c. -/
def owusb_com_bit_io (params : Nat) (bit : Bool) : ControlMsg :=
  let params := if bit then params ||| PARAM_D else params
  ⟨COMM_CMD, COM_BIT_IO ||| params, 0⟩

/-- `owusb_com_byte_io` from ds2490.c. -/
def owusb_com_byte_io (params : Nat) (byte : Nat) : ControlMsg :=
  ⟨COMM_CMD, COM_BYTE_IO ||| params, byte &&& 0xff⟩

/-- `owusb_com_block_io` from ds2490.c. -/
def owusb_com_block_io (params : Nat) (len : Nat) : ControlMsg :=
  ⟨COMM_CMD, COM_BLOCK_IO ||| params, len⟩

/-- `owusb_com_match_access` from ds2490.c (the C computes
`speed << 8 & cmd`, precedence making that `(speed << 8) & cmd`). -/
def owusb_com_match_access (params : Nat) (speed : Nat) (cmd : Nat) : ControlMsg :=
  let index := speed <<< 8 &&& cmd
  ⟨COMM_CMD, COM_MATCH_ACCESS ||| params, index⟩

/-- `owusb_com_read_straight` from ds2490.c: remaps the four flag bits and
packs the write length into the high byte of the command word. -/
def owusb_com_read_straight (params : Nat) (writelen : Nat) (readlen : Nat) : ControlMsg :=
  let p : Nat := 0
  let p := if params &&& PARAM_NTF ≠ 0 then p ||| 0x8 else p
  let p := if params &&& PARAM_ICP ≠ 0 then p ||| 0x4 else p
  let p := if params &&& PARAM_RST ≠ 0 then p ||| 0x2 else p
  let p := if params &&& PARAM_IM ≠ 0 then p ||| 0x1 else p
  let p := p ||| writelen <<< 8
  ⟨COMM_CMD, COM_READ_STRAIGHT ||| p, readlen⟩

/-- `owusb_com_do_and_release` from ds2490.c. -/
def owusb_com_do_and_release (params : Nat) (len : Nat) : ControlMsg :=
  let cmd := 0x6000 ||| COM_DO_AND_RELEASE ||| params
  ⟨COMM_CMD, cmd, len &&& 0xff⟩

/-- `owusb_com_set_path` from ds2490.c. -/
def owusb_com_set_path (params : Nat) (len : Nat) : ControlMsg :=
  ⟨COMM_CMD, COM_SET_PATH ||| params, len &&& 0xff⟩

/-- `owusb_com_write_sram_page` from ds2490.c. -/
def owusb_com_write_sram_page (params : Nat) (len : Nat) : ControlMsg :=
  ⟨COMM_CMD, COM_WRITE_SRAM_PAGE ||| params, len &&& 0xff⟩

/-- `owusb_com_write_eprom` from ds2490.c. -/
def owusb_com_write_eprom (params : Nat) (len : Nat) : ControlMsg :=
  ⟨COMM_CMD, COM_WRITE_EPROM ||| params, len⟩

/-- `owusb_com_read_crc_prot_page` from ds2490.c. -/
def owusb_com_read_crc_prot_page (params : Nat) (page_count : Nat) (page_size : Nat) :
    ControlMsg :=
  let index := page_count <<< 8 ||| page_size
  ⟨COMM_CMD, COM_READ_CRC_PROT_PAGE ||| params, index⟩

/-- `owusb_com_read_redirect_page` from ds2490.c. -/
def owusb_com_read_redirect_page (params : Nat) (page_number : Nat) (page_size : Nat) :
    ControlMsg :=
  let value := COM_READ_REDIRECT_PAGE ||| 0x2100 ||| params
  let index := page_number <<< 8 ||| page_size
  ⟨COMM_CMD, value, index⟩

/-- `owusb_com_search_access` from ds2490.c. -/
def owusb_com_search_access (params : Nat) (discrepancy : Bool) (noaccess : Bool)
    (device_count : Nat) (cmd : Nat) : ControlMsg :=
  let index := device_count <<< 8 ||| cmd
  let params := if discrepancy then params ||| PARAM_RTS else params
  let params := if noaccess then params ||| PARAM_SM else params
  ⟨COMM_CMD, COM_SEARCH_ACCESS ||| params, index⟩

end OW

namespace OW

/-! ### Reserved-bit helpers -/

theorem testBit15_of_masked {p m : Nat} (hm : m.testBit 15 = false)
    (h : p &&& m = p) : p.testBit 15 = false := by
  rw [← h, Nat.testBit_and, hm, Bool.and_false]

theorem testBit15_or {a b : Nat} (ha : a.testBit 15 = false)
    (hb : b.testBit 15 = false) : (a ||| b).testBit 15 = false := by
  rw [Nat.testBit_or, ha, hb]; rfl

theorem testBit15_mod {v : Nat} (h : v.testBit 15 = false) :
    (v % 2 ^ 16).testBit 15 = false := by
  rw [Nat.testBit_mod_two_pow, h, Bool.and_false]

end OW

/-- C6: `owusb_com_search_access` encodes purely and deterministically: with
params = PARAM_RST | PARAM_IM, discrepancy = false, limit-to-one (noaccess)
= 1, device_count = 1 and ROM command byte 0xF0, the Communication control
transfer has index word 0x01F0 (device count in the high byte, ROM command
in the low byte) and value word
COM_SEARCH_ACCESS | PARAM_RST | PARAM_IM | PARAM_SM. -/
theorem OW.search_access_encoding :
    OW.owusb_com_search_access (OW.PARAM_RST ||| OW.PARAM_IM) false true 1 0xF0 =
      ⟨OW.COMM_CMD,
       OW.COM_SEARCH_ACCESS ||| OW.PARAM_RST ||| OW.PARAM_IM ||| OW.PARAM_SM,
       0x01F0⟩ := by
  decide

namespace OW

theorem testBit15_ite {c : Prop} [Decidable c] {a b : Nat}
    (ha : a.testBit 15 = false) (hb : b.testBit 15 = false) :
    (if c then a else b).testBit 15 = false := by
  split <;> assumption

end OW

/-- C8 (amended): for every Communication command encoder other than
read-straight, and every params argument composed only of that sub-command's
documented flag bits, the 16-bit command word sent over the control pipe has
reserved bit 0x8000 clear; for read-straight the same holds provided the
write length is at most 127, since the write length occupies the high byte
of the command word and its bit 7 lands on bit 0x8000. -/
theorem OW.com_word_reserved_bit_clear :
    (∀ params type duration,
        params &&& (OW.PARAM_NTF ||| OW.PARAM_ICP ||| OW.PARAM_IM) = params →
        ((OW.owusb_com_set_duration params type duration).value % 2 ^ 16).testBit 15
          = false) ∧
    (∀ params type,
        params &&& (OW.PARAM_F ||| OW.PARAM_NTF ||| OW.PARAM_ICP ||| OW.PARAM_TYPE |||
          OW.PARAM_IM) = params →
        ((OW.owusb_com_pulse params type).value % 2 ^ 16).testBit 15 = false) ∧
    (∀ params present speed,
        params &&& (OW.PARAM_PST ||| OW.PARAM_F ||| OW.PARAM_NTF ||| OW.PARAM_ICP |||
          OW.PARAM_IM) = params →
        ((OW.owusb_com_reset params present speed).value % 2 ^ 16).testBit 15 = false) ∧
    (∀ params bit,
        params &&& (OW.PARAM_SPU ||| OW.PARAM_NTF ||| OW.PARAM_ICP ||| OW.PARAM_IM |||
          OW.PARAM_CIB ||| OW.PARAM_D) = params →
        ((OW.owusb_com_bit_io params bit).value % 2 ^ 16).testBit 15 = false) ∧
    (∀ params byte,
        params &&& (OW.PARAM_SPU ||| OW.PARAM_NTF ||| OW.PARAM_ICP ||| OW.PARAM_IM)
          = params →
        ((OW.owusb_com_byte_io params byte).value % 2 ^ 16).testBit 15 = false) ∧
    (∀ params len,
        params &&& (OW.PARAM_SPU ||| OW.PARAM_NTF ||| OW.PARAM_ICP ||| OW.PARAM_RST |||
          OW.PARAM_IM) = params →
        ((OW.owusb_com_block_io params len).value % 2 ^ 16).testBit 15 = false) ∧
    (∀ params speed cmd,
        params &&& (OW.PARAM_NTF ||| OW.PARAM_ICP ||| OW.PARAM_RST ||| OW.PARAM_SE |||
          OW.PARAM_IM) = params →
        ((OW.owusb_com_match_access params speed cmd).value % 2 ^ 16).testBit 15
          = false) ∧
    (∀ params writelen readlen,
        params &&& (OW.PARAM_NTF ||| OW.PARAM_ICP ||| OW.PARAM_RST ||| OW.PARAM_IM)
          = params →
        writelen < 128 →
        ((OW.owusb_com_read_straight params writelen readlen).value % 2 ^ 16).testBit 15
          = false) ∧
    (∀ params len,
        params &&& (OW.PARAM_SPU ||| OW.PARAM_F ||| OW.PARAM_NTF ||| OW.PARAM_ICP |||
          OW.PARAM_R ||| OW.PARAM_IM) = params →
        ((OW.owusb_com_do_and_release params len).value % 2 ^ 16).testBit 15 = false) ∧
    (∀ params len,
        params &&& (OW.PARAM_F ||| OW.PARAM_NTF ||| OW.PARAM_ICP ||| OW.PARAM_RST |||
          OW.PARAM_IM) = params →
        ((OW.owusb_com_set_path params len).value % 2 ^ 16).testBit 15 = false) ∧
    (∀ params len,
        params &&& (OW.PARAM_PS ||| OW.PARAM_DT ||| OW.PARAM_F ||| OW.PARAM_NTF |||
          OW.PARAM_ICP ||| OW.PARAM_IM) = params →
        ((OW.owusb_com_write_sram_page params len).value % 2 ^ 16).testBit 15 = false) ∧
    (∀ params len,
        params &&& (OW.PARAM_DT ||| OW.PARAM_F ||| OW.PARAM_NTF ||| OW.PARAM_ICP |||
          OW.PARAM_Z ||| OW.PARAM_IM) = params →
        ((OW.owusb_com_write_eprom params len).value % 2 ^ 16).testBit 15 = false) ∧
    (∀ params page_count page_size,
        params &&& (OW.PARAM_PS ||| OW.PARAM_DT ||| OW.PARAM_F ||| OW.PARAM_NTF |||
          OW.PARAM_ICP ||| OW.PARAM_IM) = params →
        ((OW.owusb_com_read_crc_prot_page params page_count page_size).value
          % 2 ^ 16).testBit 15 = false) ∧
    (∀ params page_number page_size,
        params &&& (OW.PARAM_F ||| OW.PARAM_NTF ||| OW.PARAM_ICP ||| OW.PARAM_CH |||
          OW.PARAM_IM) = params →
        ((OW.owusb_com_read_redirect_page params page_number page_size).value
          % 2 ^ 16).testBit 15 = false) ∧
    (∀ params discrepancy noaccess device_count cmd,
        params &&& (OW.PARAM_F ||| OW.PARAM_NTF ||| OW.PARAM_ICP ||| OW.PARAM_RST |||
          OW.PARAM_IM ||| OW.PARAM_RTS ||| OW.PARAM_SM) = params →
        ((OW.owusb_com_search_access params discrepancy noaccess device_count cmd).value
          % 2 ^ 16).testBit 15 = false) := by
  refine ⟨?_, ?_, ?_, ?_, ?_, ?_, ?_, ?_, ?_, ?_, ?_, ?_, ?_, ?_, ?_⟩
  · intro params type duration h
    have hp : params.testBit 15 = false := OW.testBit15_of_masked (by decide) h
    simp only [OW.owusb_com_set_duration]
    exact OW.testBit15_mod
      (OW.testBit15_or (OW.testBit15_ite (OW.testBit15_or hp (by decide)) hp) (by decide))
  · intro params type h
    have hp : params.testBit 15 = false := OW.testBit15_of_masked (by decide) h
    simp only [OW.owusb_com_pulse]
    exact OW.testBit15_mod
      (OW.testBit15_or (OW.testBit15_ite (OW.testBit15_or hp (by decide)) hp) (by decide))
  · intro params present speed h
    have hp : params.testBit 15 = false := OW.testBit15_of_masked (by decide) h
    simp only [OW.owusb_com_reset]
    exact OW.testBit15_mod
      (OW.testBit15_or (OW.testBit15_ite (OW.testBit15_or hp (by decide)) hp) (by decide))
  · intro params bit h
    have hp : params.testBit 15 = false := OW.testBit15_of_masked (by decide) h
    simp only [OW.owusb_com_bit_io]
    exact OW.testBit15_mod
      (OW.testBit15_or (by decide) (OW.testBit15_ite (OW.testBit15_or hp (by decide)) hp))
  · intro params byte h
    have hp : params.testBit 15 = false := OW.testBit15_of_masked (by decide) h
    simp only [OW.owusb_com_byte_io]
    exact OW.testBit15_mod (OW.testBit15_or (by decide) hp)
  · intro params len h
    have hp : params.testBit 15 = false := OW.testBit15_of_masked (by decide) h
    simp only [OW.owusb_com_block_io]
    exact OW.testBit15_mod (OW.testBit15_or (by decide) hp)
  · intro params speed cmd h
    have hp : params.testBit 15 = false := OW.testBit15_of_masked (by decide) h
    simp only [OW.owusb_com_match_access]
    exact OW.testBit15_mod (OW.testBit15_or (by decide) hp)
  · intro params writelen readlen h hw
    simp only [OW.owusb_com_read_straight]
    have hsh : (writelen <<< 8).testBit 15 = false := by
      rw [Nat.testBit_shiftLeft]
      have h7 : writelen.testBit 7 = false := Nat.testBit_lt_two_pow (by omega)
      simp [h7]
    have h0 : (0 : Nat).testBit 15 = false := by decide
    have h1 := OW.testBit15_ite (c := params &&& OW.PARAM_NTF ≠ 0)
      (OW.testBit15_or h0 (show (0x8 : Nat).testBit 15 = false by decide)) h0
    have h2 := OW.testBit15_ite (c := params &&& OW.PARAM_ICP ≠ 0)
      (OW.testBit15_or h1 (show (0x4 : Nat).testBit 15 = false by decide)) h1
    have h3 := OW.testBit15_ite (c := params &&& OW.PARAM_RST ≠ 0)
      (OW.testBit15_or h2 (show (0x2 : Nat).testBit 15 = false by decide)) h2
    have h4 := OW.testBit15_ite (c := params &&& OW.PARAM_IM ≠ 0)
      (OW.testBit15_or h3 (show (0x1 : Nat).testBit 15 = false by decide)) h3
    exact OW.testBit15_mod (OW.testBit15_or (by decide) (OW.testBit15_or h4 hsh))
  · intro params len h
    have hp : params.testBit 15 = false := OW.testBit15_of_masked (by decide) h
    simp only [OW.owusb_com_do_and_release]
    exact OW.testBit15_mod (OW.testBit15_or (OW.testBit15_or (by decide) (by decide)) hp)
  · intro params len h
    have hp : params.testBit 15 = false := OW.testBit15_of_masked (by decide) h
    simp only [OW.owusb_com_set_path]
    exact OW.testBit15_mod (OW.testBit15_or (by decide) hp)
  · intro params len h
    have hp : params.testBit 15 = false := OW.testBit15_of_masked (by decide) h
    simp only [OW.owusb_com_write_sram_page]
    exact OW.testBit15_mod (OW.testBit15_or (by decide) hp)
  · intro params len h
    have hp : params.testBit 15 = false := OW.testBit15_of_masked (by decide) h
    simp only [OW.owusb_com_write_eprom]
    exact OW.testBit15_mod (OW.testBit15_or (by decide) hp)
  · intro params page_count page_size h
    have hp : params.testBit 15 = false := OW.testBit15_of_masked (by decide) h
    simp only [OW.owusb_com_read_crc_prot_page]
    exact OW.testBit15_mod (OW.testBit15_or (by decide) hp)
  · intro params page_number page_size h
    have hp : params.testBit 15 = false := OW.testBit15_of_masked (by decide) h
    simp only [OW.owusb_com_read_redirect_page]
    exact OW.testBit15_mod (OW.testBit15_or (OW.testBit15_or (by decide) (by decide)) hp)
  · intro params discrepancy noaccess device_count cmd h
    have hp : params.testBit 15 = false := OW.testBit15_of_masked (by decide) h
    simp only [OW.owusb_com_search_access]
    have hA := OW.testBit15_ite (c := discrepancy = true)
      (OW.testBit15_or hp (show OW.PARAM_RTS.testBit 15 = false by decide)) hp
    have hB := OW.testBit15_ite (c := noaccess = true)
      (OW.testBit15_or hA (show OW.PARAM_SM.testBit 15 = false by decide)) hA
    exact OW.testBit15_mod (OW.testBit15_or (by decide) hB)

/-- C8, counterexample to the claim as stated: read-straight is one of the
listed encoders and PARAM_IM is composed only of its documented flag bits,
yet with write length 128 the 16-bit command word sent over the control pipe
has reserved bit 0x8000 set. -/
theorem OW.com_word_reserved_bit_counterexample :
    OW.PARAM_IM &&& (OW.PARAM_NTF ||| OW.PARAM_ICP ||| OW.PARAM_RST ||| OW.PARAM_IM)
      = OW.PARAM_IM ∧
    ((OW.owusb_com_read_straight OW.PARAM_IM 128 0).value % 2 ^ 16).testBit 15
      = true := by
  decide

/-- C8, witness: the amended theorem applied at concrete inputs — a
do-and-release word and a read-straight word with write length 10 both have
the reserved bit clear. -/
theorem OW.com_word_reserved_bit_witness :
    ((OW.owusb_com_do_and_release (OW.PARAM_SPU ||| OW.PARAM_F ||| OW.PARAM_IM) 4).value
      % 2 ^ 16).testBit 15 = false ∧
    ((OW.owusb_com_read_straight (OW.PARAM_RST ||| OW.PARAM_IM) 10 4).value
      % 2 ^ 16).testBit 15 = false := by
  obtain ⟨-, -, -, -, -, -, -, h8, h9, -⟩ := OW.com_word_reserved_bit_clear
  exact ⟨h9 _ 4 (by decide), h8 _ 10 4 (by decide) (by decide)⟩

namespace OW

/-! ### State/Result Decoder -/

/-- `owusb_result` from ds2490.c: the loop `for (i = 16; i < interrupt_len;
i++)` ORs into `result`; each iteration tests the byte at offset
STATE_COMBYTE2 (0x0A) against RESULT_DETECT and, when it matches, ORs
RESULT_XDETECT instead of the result byte. -/
def owusb_result (data : List Nat) (len : Nat) : Nat :=
  (List.range' 16 (len - 16)).foldl
    (fun result i =>
      if data.getD STATE_COMBYTE2 0 = RESULT_DETECT then result ||| RESULT_XDETECT
      else result ||| data.getD i 0)
    0

theorem foldl_or_const (c : Nat) :
    ∀ (k s acc : Nat),
      (List.range' s k).foldl (fun result _ => result ||| c) acc =
        if k = 0 then acc else acc ||| c := by
  intro k
  induction k with
  | zero => intro s acc; rfl
  | succ n ih =>
      intro s acc
      show (List.range' (s + 1) n).foldl (fun result _ => result ||| c) (acc ||| c) = _
      rw [ih]
      by_cases hn : n = 0
      · simp [hn]
      · rw [if_neg hn, if_neg (by omega), Nat.or_assoc, Nat.or_self]

end OW

/-- C4: for every stored interrupt report, `owusb_result` equals the
OR-reduction over the result bytes 16..length in which the device-present
sentinel case — the byte at offset 0x0A equal to 0xA5 — is folded into the
synthetic device-present bit 0x0100 instead of contributing the bytes as
error masks: when the sentinel matches, the accumulated value is exactly
RESULT_XDETECT (0 when there is no result byte at all); otherwise it is the
plain OR of the result bytes. -/
theorem OW.owusb_result_accumulation (data : List Nat) (len : Nat) :
    OW.owusb_result data len =
      if data.getD OW.STATE_COMBYTE2 0 = OW.RESULT_DETECT then
        (if 16 < len then OW.RESULT_XDETECT else 0)
      else
        (List.range' 16 (len - 16)).foldl (fun result i => result ||| data.getD i 0) 0 := by
  by_cases h : data.getD OW.STATE_COMBYTE2 0 = OW.RESULT_DETECT
  · rw [if_pos h]
    have hfold : OW.owusb_result data len =
        (List.range' 16 (len - 16)).foldl
          (fun result _ => result ||| OW.RESULT_XDETECT) 0 := by
      simp only [OW.owusb_result, if_pos h]
    rw [hfold, OW.foldl_or_const]
    by_cases h16 : 16 < len
    · rw [if_neg (by omega), if_pos h16, Nat.zero_or]
    · rw [if_pos (by omega), if_neg h16]
  · rw [if_neg h]
    simp only [OW.owusb_result, if_neg h]

namespace OW

/-- The loop-exit condition of `owusb_wait_for_presence` in ds2490.c: the
`while (owusb_result(dev) != 0xa5)` loop stops exactly when the accumulated
result equals the literal 0xA5. -/
def wait_for_presence_done (data : List Nat) (len : Nat) : Bool :=
  owusb_result data len == 0xA5

/-- The accumulated result contains the synthetic device-present bit
RESULT_XDETECT (the predicate `owusb_presence_detect` in ds2490.c tests). -/
def result_has_detect (data : List Nat) (len : Nat) : Bool :=
  owusb_result data len &&& RESULT_XDETECT != 0

/-- A 17-byte interrupt report whose byte at offset 0x0A is the
device-present sentinel 0xA5: a presence-detect report. -/
def presenceReport : List Nat :=
  List.replicate 10 0 ++ [0xA5] ++ List.replicate 5 0 ++ [0xA5]

end OW

/-- C5, the code at the failing input: on a presence report (byte 0x0A =
0xA5, length 17) the accumulated result is RESULT_XDETECT, so it contains
the device-present bit — yet the loop-exit condition of
`owusb_wait_for_presence`, which compares the accumulated result against
the literal 0xA5, is false, so the loop keeps spinning; the exit condition
is not "the result contains the device-present bit". -/
theorem OW.wait_for_presence_misses_detect :
    OW.owusb_result OW.presenceReport 17 = OW.RESULT_XDETECT ∧
    OW.result_has_detect OW.presenceReport 17 = true ∧
    OW.wait_for_presence_done OW.presenceReport 17 = false := by
  decide

namespace OW

/-! ### Transfers and the high-level reset -/

/-- One transfer a modelled operation issues on the wire. -/
inductive Xfer where
  | bulkWrite (data : List Nat) : Xfer
  | ctrlComm (msg : ControlMsg) : Xfer
  | bulkRead (len : Nat) : Xfer
  | intrRead : Xfer
  deriving Repr, DecidableEq

/-- The part of the device handle the State/Result Decoder reads: the last
stored interrupt report and its length. -/
structure DevReport where
  interrupt_data : List Nat
  interrupt_len : Nat
  deriving Repr, DecidableEq

/-- `owusb_reset` from ds2490.c: issues the Communication reset command
(whose transport result `r` the C captures and never uses) and returns
`owusb_result` of the report already stored in the handle; it performs no
interrupt read and leaves the stored report untouched. -/
def owusb_reset (dev : DevReport) (_r : Int) : Nat × DevReport × List Xfer :=
  (owusb_result dev.interrupt_data dev.interrupt_len, dev,
   [Xfer.ctrlComm (owusb_com_reset (PARAM_F ||| PARAM_IM ||| PARAM_NTF) false 0)])

end OW

/-- C10: `owusb_reset` issues the Communication reset command and returns
the accumulated result computed from the interrupt report already stored in
the handle, performing no new interrupt read: its return value is a
function only of the stored report — identical for any two outcomes of the
reset transfer — and the stored report is unchanged. -/
theorem OW.owusb_reset_returns_stored_result :
    ∀ (dev : OW.DevReport) (r1 r2 : Int),
      (OW.owusb_reset dev r1).1
          = OW.owusb_result dev.interrupt_data dev.interrupt_len ∧
      (OW.owusb_reset dev r1).1 = (OW.owusb_reset dev r2).1 ∧
      (OW.owusb_reset dev r1).2.1 = dev ∧
      (OW.owusb_reset dev r1).2.2
          = [OW.Xfer.ctrlComm
              (OW.owusb_com_reset (OW.PARAM_F ||| OW.PARAM_IM ||| OW.PARAM_NTF) false 0)] :=
  fun _ _ _ => ⟨rfl, rfl, rfl, rfl⟩

namespace OW

/-! ### ROM Search Engine: `compare` and the discrepancy-bitmap update -/

/-- The loop of `compare` in ds2490.c: `mask` starts at 0x80 and `mask2` at
0xff, both shift right once per iteration; fuel 8 covers the 8 nonzero mask
values the C `while (mask)` loop visits. -/
def compareGo (disc addr : Nat) : Nat → Nat → Nat → Nat
  | 0, _, _ => 0
  | fuel + 1, mask, mask2 =>
      if mask &&& disc ≠ 0 ∧ mask &&& addr = 0 then (disc &&& addr &&& mask2) ||| mask
      else compareGo disc addr fuel (mask >>> 1) (mask2 >>> 1)

/-- `compare` from ds2490.c: scanning from bit 7 down, the first bit where
the discrepancy byte is 1 and the address byte is 0; the result keeps that
bit plus the AND of the two bytes below it, or 0 when no such bit exists. -/
def compare (disc addr : Nat) : Nat := compareGo disc addr 8 0x80 0xff

/-- One iteration of the discrepancy-update loop body in
`owusb_search_next` (ds2490.c): `a` is the address byte `disc[i]`, `c` the
discrepancy-candidate byte `disc[i + 8]`, `set` the loop's flag; the result
is the byte written to `dev->discrepancy[i]` and the new flag. -/
def updateStep (a c : Nat) (set : Bool) : Nat × Bool :=
  if a ≠ 0 ∧ set = false then
    let b := compare c a
    if b ≠ 0 then (b, true)
    else if set then (a &&& c, set) else (0, set)
  else if set then (a &&& c, set) else (0, set)

/-- The discrepancy-update loop `for (i = 7; i >= 0; i--)` of
`owusb_search_next`, over the 16-byte response `resp` (8 address bytes,
then 8 discrepancy-candidate bytes): `updateGo resp n set` is the list of
new bitmap bytes at indices 0..n-1, the iteration at index n-1 running
first with flag `set`. -/
def updateGo (resp : List Nat) : Nat → Bool → List Nat
  | 0, _ => []
  | i + 1, set =>
      let p := updateStep (resp.getD i 0) (resp.getD (i + 8) 0) set
      updateGo resp i p.2 ++ [p.1]

/-- The new discrepancy bitmap `owusb_search_next` stores after a 16-byte
read: every byte of `dev->discrepancy` is overwritten by the loop, so the
new bitmap is a pure function of the response. -/
def searchUpdate (resp : List Nat) : List Nat := updateGo resp 8 false

/-- Byte index `i` is where the loop's `compare` fires: the address byte is
nonzero and the comparison against its paired candidate byte yields a
divergence bit. -/
def divergesAt (resp : List Nat) (i : Nat) : Bool :=
  decide (resp.getD i 0 ≠ 0 ∧ compare (resp.getD (i + 8) 0) (resp.getD i 0) ≠ 0)

/-- Some byte index strictly above `j` and below `n` diverges. -/
def higherDiverges (resp : List Nat) (j n : Nat) : Bool :=
  (List.range n).any fun i => decide (j < i) && divergesAt resp i

theorem divergesAt_def (resp : List Nat) (i : Nat) :
    decide (resp.getD i 0 ≠ 0 ∧ compare (resp.getD (i + 8) 0) (resp.getD i 0) ≠ 0)
      = divergesAt resp i := rfl

theorem updateStep_fst (a c : Nat) (set : Bool) :
    (updateStep a c set).1 =
      if set then a &&& c
      else if decide (a ≠ 0 ∧ compare c a ≠ 0) then compare c a else 0 := by
  cases set
  · by_cases ha : a = 0
    · simp [updateStep, ha]
    · by_cases hb : compare c a = 0
      · simp [updateStep, ha, hb]
      · simp [updateStep, ha, hb]
  · simp [updateStep]

theorem updateStep_snd (a c : Nat) (set : Bool) :
    (updateStep a c set).2 = (set || decide (a ≠ 0 ∧ compare c a ≠ 0)) := by
  cases set
  · by_cases ha : a = 0
    · simp [updateStep, ha]
    · by_cases hb : compare c a = 0
      · simp [updateStep, ha, hb]
      · simp [updateStep, ha, hb]
  · simp [updateStep]

theorem updateGo_length (resp : List Nat) :
    ∀ (n : Nat) (set : Bool), (updateGo resp n set).length = n := by
  intro n
  induction n with
  | zero => intro set; rfl
  | succ m ih =>
      intro set
      simp [updateGo, ih]

theorem getD_snoc_lt (l : List Nat) (v : Nat) (j : Nat) (h : j < l.length) :
    (l ++ [v]).getD j 0 = l.getD j 0 := by
  rw [List.getD_eq_getElem?_getD, List.getD_eq_getElem?_getD,
    List.getElem?_append_left h]

theorem getD_snoc_last (l : List Nat) (v : Nat) :
    (l ++ [v]).getD l.length 0 = v := by
  rw [List.getD_eq_getElem?_getD, List.getElem?_concat_length]
  rfl

theorem higherDiverges_succ (resp : List Nat) (j m : Nat) :
    higherDiverges resp j (m + 1) =
      (higherDiverges resp j m || (decide (j < m) && divergesAt resp m)) := by
  unfold higherDiverges
  rw [List.range_succ, List.any_append]
  simp

theorem higherDiverges_last (resp : List Nat) (m : Nat) :
    higherDiverges resp m (m + 1) = false := by
  unfold higherDiverges
  rw [List.any_eq_false]
  intro i hi
  have him : i < m + 1 := List.mem_range.mp hi
  have : ¬ (m < i) := by omega
  simp [this]

theorem updateGo_getD (resp : List Nat) :
    ∀ (n : Nat) (set : Bool) (j : Nat), j < n →
      (updateGo resp n set).getD j 0 =
        if set || higherDiverges resp j n then resp.getD j 0 &&& resp.getD (j + 8) 0
        else if divergesAt resp j then compare (resp.getD (j + 8) 0) (resp.getD j 0)
        else 0 := by
  intro n
  induction n with
  | zero => intro set j hj; omega
  | succ m ih =>
      intro set j hj
      have hlen := updateGo_length resp m
        (updateStep (resp.getD m 0) (resp.getD (m + 8) 0) set).2
      by_cases hjm : j = m
      · subst hjm
        show (updateGo resp j (updateStep (resp.getD j 0) (resp.getD (j + 8) 0) set).2
            ++ [(updateStep (resp.getD j 0) (resp.getD (j + 8) 0) set).1]).getD j 0 = _
        have hlast := getD_snoc_last
          (updateGo resp j (updateStep (resp.getD j 0) (resp.getD (j + 8) 0) set).2)
          ((updateStep (resp.getD j 0) (resp.getD (j + 8) 0) set).1)
        rw [hlen] at hlast
        rw [hlast, updateStep_fst, higherDiverges_last, Bool.or_false, divergesAt_def]
      · have hjm' : j < m := by omega
        show (updateGo resp m _ ++ [_]).getD j 0 = _
        rw [getD_snoc_lt _ _ _ (by rw [hlen]; exact hjm'),
          ih _ j hjm', updateStep_snd, divergesAt_def, higherDiverges_succ]
        have hdec : decide (j < m) = true := by simpa using hjm'
        rw [hdec]
        cases set <;> cases hD : divergesAt resp m <;>
          cases hH : higherDiverges resp j m <;> simp

end OW

/-- C1 (amended): when a search step returns 16 bytes, the new discrepancy
bitmap is determined byte by byte: scanning from byte 7 down, the found
byte is the highest index whose ADDRESS byte is nonzero and whose
`compare` against the paired discrepancy-candidate byte yields a
divergence bit; at that index the bitmap byte is that `compare` value (the
divergence bit plus the AND of address and candidate below it), every
higher-order byte is cleared, and every lower-order byte is the AND of
address byte and candidate byte; when no byte qualifies the bitmap is all
zeros. Equivalently, byte j is the AND when some higher index diverges,
the `compare` value when j itself is the highest diverging index, and 0
otherwise. -/
theorem OW.search_discrepancy_update (resp : List Nat) (j : Nat) (hj : j < 8) :
    (OW.searchUpdate resp).getD j 0 =
      if OW.higherDiverges resp j 8 then resp.getD j 0 &&& resp.getD (j + 8) 0
      else if OW.divergesAt resp j then
        OW.compare (resp.getD (j + 8) 0) (resp.getD j 0)
      else 0 := by
  have h := OW.updateGo_getD resp 8 false j hj
  simpa [OW.searchUpdate] using h

namespace OW

/-- Follows the claim's words (C1), for comparison with the code's
`searchUpdate`: find the highest-order byte with any bit set in the
discrepancy-candidate block; within it set the highest branch bit where
the address took the 0 branch while a 1 branch existed (the `compare`
mask); clear all higher-order bytes; every lower-order byte becomes the
AND of address byte and candidate byte. -/
def searchUpdateClaimed (resp : List Nat) : List Nat :=
  match (List.range 8).reverse.find? (fun i => resp.getD (i + 8) 0 != 0) with
  | none => List.replicate 8 0
  | some k =>
      List.ofFn (fun j : Fin 8 =>
        if k < j.1 then 0
        else if j.1 = k then compare (resp.getD (k + 8) 0) (resp.getD k 0)
        else resp.getD j.1 0 &&& resp.getD (j.1 + 8) 0)

end OW

/-- C1, counterexample to the claim as stated: for the 16-byte response
with all address bytes zero and candidate byte 7 = 0x80 (a shorted or
all-zero bus answer), the claim's rule — highest-order byte with any bit
set in the discrepancy-candidate block is byte 7, whose divergence bit is
bit 7 — sets bitmap byte 7 to 0x80, but the code's loop fires only when
the ADDRESS byte `disc[i]` is nonzero and therefore leaves the bitmap all
zeros. -/
theorem OW.search_discrepancy_update_counterexample :
    OW.searchUpdate (List.replicate 15 0 ++ [0x80]) = List.replicate 8 0 ∧
    OW.searchUpdateClaimed (List.replicate 15 0 ++ [0x80]) =
      [0, 0, 0, 0, 0, 0, 0, 0x80] ∧
    OW.searchUpdate (List.replicate 15 0 ++ [0x80]) ≠
      OW.searchUpdateClaimed (List.replicate 15 0 ++ [0x80]) := by
  decide

namespace OW

/-- A concrete 16-byte search response: address bytes all 1, candidate
bytes all 2, so every byte index diverges. -/
def respW : List Nat := [1, 1, 1, 1, 1, 1, 1, 1, 2, 2, 2, 2, 2, 2, 2, 2]

end OW

/-- C1, witness: the amended update theorem at the concrete response
`respW` and byte index 0. -/
theorem OW.search_discrepancy_update_witness :
    (OW.searchUpdate OW.respW).getD 0 0 =
      if OW.higherDiverges OW.respW 0 8 then OW.respW.getD 0 0 &&& OW.respW.getD 8 0
      else if OW.divergesAt OW.respW 0 then
        OW.compare (OW.respW.getD 8 0) (OW.respW.getD 0 0)
      else 0 :=
  OW.search_discrepancy_update OW.respW 0 (by decide)

namespace OW

/-! ### `owusb_search_next`: one search step -/

/-- The search state `owusb_search_next` reads and writes in the device
handle: the 8-byte discrepancy bitmap, the stop flag and the stored ROM
command byte. -/
structure SearchState where
  discrepancy : List Nat
  search_stop : Bool
  search_cmd : Nat
  deriving Repr, DecidableEq

/-- The transport outcomes one call of `owusb_search_next` observes: the
results of the bulk write of the bitmap, of the search-access control
transfer and of the 16-byte bulk read, plus the bytes that read placed in
the local `disc` buffer. -/
structure SearchEnv where
  writeRes : Int
  searchAccessRes : Int
  readRes : Int
  readData : List Nat
  deriving Repr, DecidableEq

/-- What one call of `owusb_search_next` produces: the C return value, the
new handle state, the caller's 8-byte address buffer after the call, and
the transfers issued on the wire. -/
structure SearchNextResult where
  ret : Int
  st : SearchState
  data : List Nat
  xfers : List Xfer
  deriving Repr, DecidableEq

/-- `owusb_search_next` from ds2490.c: return 0 at once when the stop flag
is set; return 0 when the bulk write or the search-access transfer fails;
set the stop flag and return 0 on a read shorter than 8 bytes; otherwise
copy the first 8 read bytes into the caller's buffer and return 1, storing
the updated discrepancy bitmap on a 16-byte read and setting the stop flag
otherwise. -/
def owusb_search_next (dev : SearchState) (env : SearchEnv) (data : List Nat) :
    SearchNextResult :=
  if dev.search_stop then ⟨0, dev, data, []⟩
  else if env.writeRes < 0 then ⟨0, dev, data, [Xfer.bulkWrite dev.discrepancy]⟩
  else
    let xfers := [Xfer.bulkWrite dev.discrepancy,
      Xfer.ctrlComm (owusb_com_search_access (PARAM_F ||| PARAM_RST ||| PARAM_IM)
        true true 1 dev.search_cmd)]
    if env.searchAccessRes < 0 then ⟨0, dev, data, xfers⟩
    else
      let xfers := xfers ++ [Xfer.bulkRead 16]
      if env.readRes < 8 then ⟨0, { dev with search_stop := true }, data, xfers⟩
      else
        let data' := env.readData.take 8
        if env.readRes = 16 then
          ⟨1, { dev with discrepancy := searchUpdate env.readData }, data', xfers⟩
        else
          ⟨1, { dev with search_stop := true }, data', xfers⟩

end OW

/-- C3: `owusb_search_next` with the stop flag already set returns 0 ("no
more devices") immediately, issuing no transfers and leaving state and
buffer untouched; with the transfers succeeding, a bulk read shorter than
8 bytes yields return 0 with the stop flag set (terminal, not an error);
and a read of exactly 8 bytes returns 1 handing the caller those 8 address
bytes while setting the stop flag, so that the following call is
terminal. -/
theorem OW.search_next_terminal :
    (∀ (dev : OW.SearchState) (env : OW.SearchEnv) (data : List Nat),
        dev.search_stop = true →
        OW.owusb_search_next dev env data = ⟨0, dev, data, []⟩) ∧
    (∀ (dev : OW.SearchState) (env : OW.SearchEnv) (data : List Nat),
        dev.search_stop = false →
        0 ≤ env.writeRes → 0 ≤ env.searchAccessRes →
        0 ≤ env.readRes → env.readRes < 8 →
        (OW.owusb_search_next dev env data).ret = 0 ∧
        (OW.owusb_search_next dev env data).st.search_stop = true) ∧
    (∀ (dev : OW.SearchState) (env : OW.SearchEnv) (data : List Nat),
        dev.search_stop = false →
        0 ≤ env.writeRes → 0 ≤ env.searchAccessRes → env.readRes = 8 →
        (OW.owusb_search_next dev env data).ret = 1 ∧
        (OW.owusb_search_next dev env data).data = env.readData.take 8 ∧
        (OW.owusb_search_next dev env data).st.search_stop = true ∧
        (∀ (env2 : OW.SearchEnv) (data2 : List Nat),
          OW.owusb_search_next ((OW.owusb_search_next dev env data).st) env2 data2 =
            ⟨0, (OW.owusb_search_next dev env data).st, data2, []⟩)) := by
  refine ⟨?_, ?_, ?_⟩
  · intro dev env data h
    simp [OW.owusb_search_next, h]
  · intro dev env data h hw hc _hr0 hr8
    simp [OW.owusb_search_next, h, Int.not_lt.mpr hw, Int.not_lt.mpr hc, hr8]
  · intro dev env data h hw hc hr8
    have hn8 : ¬ env.readRes < 8 := by omega
    have hn16 : ¬ env.readRes = 16 := by omega
    refine ⟨?_, ?_, ?_, ?_⟩
    · simp [OW.owusb_search_next, h, Int.not_lt.mpr hw, Int.not_lt.mpr hc, hn8, hn16]
    · simp [OW.owusb_search_next, h, Int.not_lt.mpr hw, Int.not_lt.mpr hc, hn8, hn16]
    · simp [OW.owusb_search_next, h, Int.not_lt.mpr hw, Int.not_lt.mpr hc, hn8, hn16]
    · intro env2 data2
      simp [OW.owusb_search_next, h, Int.not_lt.mpr hw, Int.not_lt.mpr hc, hn8, hn16]

namespace OW

/-- A fresh search state: zero bitmap, stop flag clear, search-all ROM
command. -/
def devA : SearchState := ⟨List.replicate 8 0, false, 0xF0⟩

/-- The same handle with the stop flag set. -/
def devStop : SearchState := ⟨List.replicate 8 0, true, 0xF0⟩

/-- A transport whose bulk write fails with -1. -/
def envWriteFail : SearchEnv := ⟨-1, 0, 0, []⟩

/-- A transport where all transfers succeed but the bus is empty: the bulk
read returns 0 bytes. -/
def envEmptyBus : SearchEnv := ⟨8, 0, 0, []⟩

/-- A transport where the bulk read returns exactly 8 bytes. -/
def envRead8 : SearchEnv := ⟨8, 0, 8, List.replicate 8 0x23⟩

end OW

/-- C3, witness: the terminal-behavior theorem applied at concrete inputs:
a stopped handle returns 0 with no transfers; an empty bus gives return 0
with the stop flag set; an exactly-8-byte read gives return 1. -/
theorem OW.search_next_terminal_witness :
    OW.owusb_search_next OW.devStop OW.envEmptyBus [] = ⟨0, OW.devStop, [], []⟩ ∧
    (OW.owusb_search_next OW.devA OW.envEmptyBus []).ret = 0 ∧
    (OW.owusb_search_next OW.devA OW.envEmptyBus []).st.search_stop = true ∧
    (OW.owusb_search_next OW.devA OW.envRead8 []).ret = 1 := by
  obtain ⟨h1, h2, h3⟩ := OW.search_next_terminal
  exact ⟨h1 _ _ _ rfl,
    (h2 _ _ _ rfl (by decide) (by decide) (by decide) (by decide)).1,
    (h2 _ _ _ rfl (by decide) (by decide) (by decide) (by decide)).2,
    (h3 _ _ _ rfl (by decide) (by decide) rfl).1⟩

/-- C7, counterexample to the claim as stated: with a fresh handle, a bulk
write failing with -1 makes `owusb_search_next` return 0 — the very value
the normal terminal "no more devices" path (an empty-bus short read)
returns — and not a negative error value, so transfer failures are not
propagated to the caller as an error distinguished from the terminal
signal. -/
theorem OW.search_next_error_counterexample :
    (OW.owusb_search_next OW.devA OW.envWriteFail (List.replicate 8 0)).ret = 0 ∧
    (OW.owusb_search_next OW.devA OW.envEmptyBus (List.replicate 8 0)).ret = 0 ∧
    ¬ (OW.owusb_search_next OW.devA OW.envWriteFail (List.replicate 8 0)).ret < 0 := by
  decide

/-- C7 (amended): during a search step, a negative result from the bulk
write makes `owusb_search_next` return 0 at once, issuing no further
transfers and leaving state and address buffer unchanged; a negative
result from the search-access transfer likewise returns 0 after those two
transfers; a negative bulk-read result is handled like a short read: the
stop flag is set and 0 is returned. In every failure case the return value
is the same 0 that signals "no more devices" — transfer errors are
swallowed, not propagated as a distinct error. -/
theorem OW.search_next_transport_failure :
    (∀ (dev : OW.SearchState) (env : OW.SearchEnv) (data : List Nat),
        dev.search_stop = false → env.writeRes < 0 →
        OW.owusb_search_next dev env data =
          ⟨0, dev, data, [OW.Xfer.bulkWrite dev.discrepancy]⟩) ∧
    (∀ (dev : OW.SearchState) (env : OW.SearchEnv) (data : List Nat),
        dev.search_stop = false → 0 ≤ env.writeRes → env.searchAccessRes < 0 →
        OW.owusb_search_next dev env data =
          ⟨0, dev, data,
           [OW.Xfer.bulkWrite dev.discrepancy,
            OW.Xfer.ctrlComm (OW.owusb_com_search_access
              (OW.PARAM_F ||| OW.PARAM_RST ||| OW.PARAM_IM) true true 1
              dev.search_cmd)]⟩) ∧
    (∀ (dev : OW.SearchState) (env : OW.SearchEnv) (data : List Nat),
        dev.search_stop = false → 0 ≤ env.writeRes → 0 ≤ env.searchAccessRes →
        env.readRes < 0 →
        (OW.owusb_search_next dev env data).ret = 0 ∧
        (OW.owusb_search_next dev env data).st =
          { dev with search_stop := true } ∧
        (OW.owusb_search_next dev env data).data = data) := by
  refine ⟨?_, ?_, ?_⟩
  · intro dev env data h hw
    simp [OW.owusb_search_next, h, hw]
  · intro dev env data h hw hc
    simp [OW.owusb_search_next, h, Int.not_lt.mpr hw, hc]
  · intro dev env data h hw hc hr
    have hr8 : env.readRes < 8 := by omega
    simp [OW.owusb_search_next, h, Int.not_lt.mpr hw, Int.not_lt.mpr hc, hr8]

/-- C7, witness: the amended theorem applied at a concrete failing write:
the call returns 0 immediately with only the attempted bulk write
issued. -/
theorem OW.search_next_transport_failure_witness :
    OW.owusb_search_next OW.devA OW.envWriteFail (List.replicate 8 0) =
      ⟨0, OW.devA, List.replicate 8 0, [OW.Xfer.bulkWrite OW.devA.discrepancy]⟩ :=
  (OW.search_next_transport_failure).1 OW.devA OW.envWriteFail (List.replicate 8 0)
    rfl (by decide)

/-- C9: whenever `owusb_search_next` returns 0 — stop flag already set,
bulk write failed, search-access failed, or fewer than 8 bytes read — the
caller's address buffer comes back exactly as passed in; the buffer is
overwritten (with the first 8 read bytes) exactly when the read returned
at least 8 bytes with all transfers succeeding on an unstopped handle, and
then the function returns 1. -/
theorem OW.search_next_addr_frame :
    ∀ (dev : OW.SearchState) (env : OW.SearchEnv) (data : List Nat),
      ((OW.owusb_search_next dev env data).ret = 0 →
        (OW.owusb_search_next dev env data).data = data) ∧
      ((OW.owusb_search_next dev env data).ret = 1 ↔
        dev.search_stop = false ∧ 0 ≤ env.writeRes ∧ 0 ≤ env.searchAccessRes ∧
          8 ≤ env.readRes) ∧
      (dev.search_stop = false → 0 ≤ env.writeRes → 0 ≤ env.searchAccessRes →
        8 ≤ env.readRes →
        (OW.owusb_search_next dev env data).data = env.readData.take 8) := by
  intro dev env data
  cases hstop : dev.search_stop with
  | true => simp [OW.owusb_search_next, hstop]
  | false =>
      by_cases hw : env.writeRes < 0
      · simp [OW.owusb_search_next, hstop, hw, Int.not_le.mpr hw]
      · by_cases hc : env.searchAccessRes < 0
        · simp [OW.owusb_search_next, hstop, hw, hc, Int.not_lt.mp hw,
            Int.not_le.mpr hc]
        · by_cases hr : env.readRes < 8
          · simp [OW.owusb_search_next, hstop, hw, hc, hr, Int.not_lt.mp hw,
              Int.not_lt.mp hc, Int.not_le.mpr hr]
          · by_cases h16 : env.readRes = 16
            · simp [OW.owusb_search_next, hstop, hw, hc, hr, h16,
                Int.not_lt.mp hw, Int.not_lt.mp hc, Int.not_lt.mp hr]
            · simp [OW.owusb_search_next, hstop, hw, hc, hr, h16,
                Int.not_lt.mp hw, Int.not_lt.mp hc, Int.not_lt.mp hr]

/-- C9, witness: the frame theorem at a concrete returning-0 call (stopped
handle): the address buffer [1, 2, 3] comes back unchanged. -/
theorem OW.search_next_addr_frame_witness :
    (OW.owusb_search_next OW.devStop OW.envEmptyBus [1, 2, 3]).data = [1, 2, 3] :=
  (OW.search_next_addr_frame OW.devStop OW.envEmptyBus [1, 2, 3]).1 rfl

namespace OW

/-! ### Bulk I/O Transaction: `owusb_block_io` -/

/-- What one call of `owusb_block_io` produces: the C return value, the
caller's read buffer after the call, the flag word handed to the block-I/O
command and the sleep budget in microseconds. -/
structure BlockIOResult where
  ret : Int
  readdata : List Nat
  flags : Nat
  sleeplen : Nat
  deriving Repr, DecidableEq

/-- `owusb_block_io` from ds2490.c: the read region is prefilled with 0xFF
and pushed to the out endpoint, the block-I/O command is issued, and the
echo is read back into `tmpbuf` (here `echoed`, the bytes that bulk read
produced); if the first writedatalen echoed bytes differ from the bytes
written the call returns -1 before copying anything into the caller's
read buffer; otherwise the readdatalen bytes after the echoed write are
copied out. -/
def owusb_block_io (writedata readInit echoed : List Nat) (reset spu : Bool) :
    BlockIOResult :=
  let writedatalen := writedata.length
  let readdatalen := readInit.length
  let flags := PARAM_IM
  let datalen := writedatalen + readdatalen
  let sleeplen := 0
  let flags := if reset then flags ||| PARAM_RST else flags
  let sleeplen := if reset then 1096 else sleeplen
  let flags := if spu then flags ||| PARAM_SPU else flags
  let readdata := if readdatalen ≠ 0 then List.replicate readdatalen 0xFF else readInit
  let sleeplen := sleeplen + datalen * 8 * FLEXIBLE_SLOT_US
  if writedatalen ≠ 0 ∧ echoed.take writedatalen ≠ writedata then
    ⟨-1, readdata, flags, sleeplen⟩
  else if readdatalen ≠ 0 then
    ⟨0, (echoed.drop writedatalen).take readdatalen, flags, sleeplen⟩
  else
    ⟨0, readdata, flags, sleeplen⟩

end OW

/-- C2: for every call of `owusb_block_io` with a nonempty write buffer, if
the first writedatalen bytes read back from the bulk-in endpoint differ
from the bytes written, the call fails with a negative return
(BusIntegrityError) and the caller's read buffer holds only the 0xFF
prefill — no byte of the read-back payload is copied into it. -/
theorem OW.block_io_write_verify (writedata readInit echoed : List Nat)
    (reset spu : Bool) (hw : writedata.length ≠ 0)
    (hm : echoed.take writedata.length ≠ writedata) :
    (OW.owusb_block_io writedata readInit echoed reset spu).ret < 0 ∧
    (OW.owusb_block_io writedata readInit echoed reset spu).readdata =
      (if readInit.length ≠ 0 then List.replicate readInit.length 0xFF
       else readInit) := by
  simp only [OW.owusb_block_io, if_pos (And.intro hw hm)]
  exact ⟨by decide, trivial⟩

/-- C2, witness: the verification theorem at a concrete call — write
buffer [1, 2, 3], echo corrupted in its first byte — fails with a negative
return and leaves only the 0xFF prefill in the 2-byte read buffer. -/
theorem OW.block_io_write_verify_witness :
    (OW.owusb_block_io [1, 2, 3] [0, 0] [9, 2, 3] false false).ret < 0 ∧
    (OW.owusb_block_io [1, 2, 3] [0, 0] [9, 2, 3] false false).readdata =
      (if ([0, 0] : List Nat).length ≠ 0 then
        List.replicate ([0, 0] : List Nat).length 0xFF
       else [0, 0]) :=
  OW.block_io_write_verify [1, 2, 3] [0, 0] [9, 2, 3] false false
    (by decide) (by decide)
